import Mathlib

/-!
Shallow embedding of the conversation state machine of `src/App.tsx`
(VEDICSTEM chat client).

The embedded code is the hook `useChatHandlers` together with the initial
state of the `App` component:

* `Message` mirrors the TypeScript `Message` type (`id`, `type`,
  `content`, optional `feedback`, optional `isLoading`).
* `submitStart` is the synchronous phase of `handleSendMessage`: the
  guard `if (!message.trim() || isLoading) return;`, `setIsLoading(true)`,
  appending the user turn (id `Date.now()`) and the loading placeholder
  (id `Date.now() + 1`), `setMessage('')`, and the lazy chat-session
  creation from the captured (pre-append) `messages` array.  The two
  `Date.now()` readings are passed in as `t1` and `t2`.
* `submitSettle` is the continuation after `await chatRef.current
  .sendMessage(...)`: on success every message with `isLoading` gets the
  response text, on failure (the `catch` arm) the apology string, and the
  `finally` arm clears `isLoading`.  The outcome of the remote call is an
  `Except Unit String`.
* `handleNewChat`, `handleRegenerate`, `handleFeedback` mirror the
  handlers of the same names; `jsReplaceFirst` models JavaScript
  `String.replace` with a string pattern, which replaces only the first
  occurrence.
* `Event`, `step`, `runTrace` let us talk about sequences of user /
  network events interleaving with each other (the React event loop runs
  them one at a time); `validOk` checks that a trace is realizable
  (`Date.now()` readings non-decreasing, a settlement only while a call
  is in flight, i.e. while `isLoading` is set - no other handler ever
  clears `isLoading`, so `isLoading` is exactly "a call is in flight").
-/

inductive MsgType where
  | user
  | bot
deriving DecidableEq

inductive Feedback where
  | Like
  | Dislike
deriving DecidableEq

structure Message where
  id : Nat
  type : MsgType
  content : String
  feedback : Option Feedback := none
  isLoading : Bool := false
deriving DecidableEq

/-- One entry of the `history` array built in `handleSendMessage`:
`{ role: msg.type === 'user' ? 'user' : 'model', parts: [{ text: msg.content }] }`. -/
structure HistoryEntry where
  role : String
  parts : List String
deriving DecidableEq

/-- The state held by `App` that the chat handlers read and write:
`messages`, the input `message`, `isLoading`, and `chatRef.current`
(modelled as the history the session was created with, `none` while no
session exists). -/
structure ChatState where
  messages : List Message
  inputText : String
  isLoading : Bool
  chatHandle : Option (List HistoryEntry)
deriving DecidableEq

/-- JavaScript `String.prototype.trim`: strip leading and trailing
whitespace.  (Defined structurally so that it computes by reduction.) -/
def jsTrim (s : String) : String :=
  String.mk (((s.data.dropWhile Char.isWhitespace).reverse.dropWhile
    Char.isWhitespace).reverse)

/-- The fixed error string of the `catch` arm of `handleSendMessage`. -/
def APOLOGY : String := "Sorry, I encountered an error. Please try again."

/-- The fixed marker of `handleRegenerate`. -/
def REGEN_MARKER : String := "[REGENERATED] "

/-- `messages.map(msg => ({ role: msg.type === 'user' ? 'user' : 'model',
parts: [{ text: msg.content }] }))`, per entry. -/
def toHistoryEntry (m : Message) : HistoryEntry :=
  { role := if m.type = MsgType.user then "user" else "model",
    parts := [m.content] }

/-- The `newMessage` object of `handleSendMessage`:
`{ id: Date.now(), type: 'user', content: message.trim() }`. -/
def mkUserTurn (s : ChatState) (t1 : Nat) : Message :=
  { id := t1, type := MsgType.user, content := jsTrim s.inputText }

/-- The placeholder appended next to it:
`{ id: Date.now() + 1, type: 'bot', content: '', isLoading: true }`. -/
def mkPendingTurn (t2 : Nat) : Message :=
  { id := t2 + 1, type := MsgType.bot, content := "", isLoading := true }

/-- `if (!chatRef.current) { ... chatRef.current = ai.chats.create({ ...,
history }) }` - the history is built from the captured `messages` value,
i.e. the list as it was before the two new turns were appended. -/
def getOrCreateSession (handle : Option (List HistoryEntry))
    (prior : List Message) : Option (List HistoryEntry) :=
  match handle with
  | some h => some h
  | none => some (prior.map toHistoryEntry)

/-- Synchronous phase of `handleSendMessage` (everything up to the
`await`): guard, `setIsLoading(true)`, append of the two turns,
`setMessage('')`, lazy session creation. -/
def submitStart (s : ChatState) (t1 t2 : Nat) : ChatState :=
  if jsTrim s.inputText = "" ∨ s.isLoading = true then s
  else
    { messages := s.messages ++ [mkUserTurn s t1, mkPendingTurn t2],
      inputText := "",
      isLoading := true,
      chatHandle := getOrCreateSession s.chatHandle s.messages }

/-- The text written into loading messages at settlement: the response
text on success, the fixed apology string in the `catch` arm. -/
def settleText : Except Unit String → String
  | Except.ok t => t
  | Except.error _ => APOLOGY

/-- `msg.isLoading ? { ...msg, content: ..., isLoading: false } : msg`. -/
def resolveMsg (r : Except Unit String) (m : Message) : Message :=
  if m.isLoading then { m with content := settleText r, isLoading := false } else m

/-- Settlement phase of `handleSendMessage`: the success / `catch`
`setMessages` call (both keyed on `msg.isLoading`) followed by the
`finally { setIsLoading(false) }`. -/
def submitSettle (s : ChatState) (r : Except Unit String) : ChatState :=
  { s with messages := s.messages.map (resolveMsg r), isLoading := false }

/-- `handleNewChat`: `setMessages([]); setMessage(''); chatRef.current =
null;` - note that it does not touch `isLoading`. -/
def handleNewChat (s : ChatState) : ChatState :=
  { s with messages := [], inputText := "", chatHandle := none }

/-- JavaScript `s.replace(pat, repl)` with a string pattern: only the
first occurrence of `pat` in `s` is replaced; `s` is returned unchanged
when `pat` does not occur. -/
def jsReplaceFirstAux (pat repl : List Char) (cs : List Char) : List Char :=
  match cs with
  | [] => if pat.isEmpty then repl else []
  | c :: rest =>
    if pat.isPrefixOf (c :: rest) then repl ++ (c :: rest).drop pat.length
    else c :: jsReplaceFirstAux pat repl rest

def jsReplaceFirst (s pat repl : String) : String :=
  String.mk (jsReplaceFirstAux pat.data repl.data s.data)

/-- The content rewrite of `handleRegenerate`:
`` `[REGENERATED] ${msg.content.replace('[REGENERATED] ', '')}` ``. -/
def regenContent (c : String) : String :=
  REGEN_MARKER ++ jsReplaceFirst c REGEN_MARKER ""

/-- `msg.id === messageId ? { ...msg, content: ... } : msg` - matched by
id alone, with no check of `msg.type`. -/
def regenMsg (i : Nat) (m : Message) : Message :=
  if m.id = i then { m with content := regenContent m.content } else m

def handleRegenerate (s : ChatState) (i : Nat) : ChatState :=
  { s with messages := s.messages.map (regenMsg i) }

/-- `msg.feedback === feedbackType ? null : feedbackType`. -/
def toggleFB (k : Feedback) (fb : Option Feedback) : Option Feedback :=
  if fb = some k then none else some k

def fbMsg (i : Nat) (k : Feedback) (m : Message) : Message :=
  if m.id = i then { m with feedback := toggleFB k m.feedback } else m

def handleFeedback (s : ChatState) (i : Nat) (k : Feedback) : ChatState :=
  { s with messages := s.messages.map (fbMsg i k) }

/-- The initial state of `App`: the two hardcoded turns of the
`useState` initializer, empty input, `isLoading` false, no session. -/
def initState : ChatState :=
  { messages := [
      { id := 1, type := MsgType.user,
        content := "What is VEDICSTEM and how does it integrate traditional knowledge with modern science?" },
      { id := 2, type := MsgType.bot,
        content := "VEDICSTEM is an innovative approach that bridges ancient Vedic wisdom with contemporary STEM (Science, Technology, Engineering, and Mathematics) education. It explores how traditional Indian knowledge systems, including mathematics, astronomy, medicine, and engineering principles found in ancient texts, align with and complement modern scientific understanding. This integration helps students appreciate the rich scientific heritage while applying it to solve contemporary challenges." } ],
    inputText := "",
    isLoading := false,
    chatHandle := none }

/-- The discrete events the React event loop can deliver to the core:
typing in the textarea (`setMessage`), the synchronous phase of a
submission (with its two `Date.now()` readings), the settlement of the
in-flight remote call, and the remaining handlers. -/
inductive Event where
  | setInput (text : String)
  | submitStart (t1 t2 : Nat)
  | submitSettle (r : Except Unit String)
  | newChat
  | regenerate (i : Nat)
  | feedback (i : Nat) (k : Feedback)

def step (s : ChatState) : Event → ChatState
  | Event.setInput t => { s with inputText := t }
  | Event.submitStart t1 t2 => submitStart s t1 t2
  | Event.submitSettle r => submitSettle s r
  | Event.newChat => handleNewChat s
  | Event.regenerate i => handleRegenerate s i
  | Event.feedback i k => handleFeedback s i k

def runTrace (s : ChatState) : List Event → ChatState
  | [] => s
  | e :: es => runTrace (step s e) es

/-- Number of messages whose `isLoading` flag is set (pending turns). -/
def pendingCount (s : ChatState) : Nat :=
  s.messages.countP (fun m => m.isLoading)

/-- The turn ids, in list (= creation) order. -/
def idsOf (s : ChatState) : List Nat :=
  s.messages.map (fun m => m.id)

/-- Realizability of a trace from a given state and last clock reading:
`Date.now()` readings are non-decreasing (`clk ≤ t1 ≤ t2`), and a
settlement event can only occur while a call is in flight
(`isLoading`). -/
def validOk : ChatState → Nat → List Event → Bool
  | _, _, [] => true
  | s, clk, Event.submitStart t1 t2 :: es =>
      decide (clk ≤ t1) && decide (t1 ≤ t2) &&
        validOk (step s (Event.submitStart t1 t2)) t2 es
  | s, clk, Event.submitSettle r :: es =>
      s.isLoading && validOk (step s (Event.submitSettle r)) clk es
  | s, clk, e :: es => validOk (step s e) clk es

/-- Stronger clock condition: consecutive submissions read clocks at
least 2 apart (`clk + 2 ≤ t1`), i.e. strictly more than one millisecond
elapses between the second reading of one submission and the first
reading of the next. -/
def spacedOk : Nat → List Event → Bool
  | _, [] => true
  | clk, Event.submitStart t1 t2 :: es =>
      decide (clk + 2 ≤ t1) && decide (t1 ≤ t2) && spacedOk t2 es
  | clk, _ :: es => spacedOk clk es

/-- Feedback of the turn with a given id, when it exists. -/
def feedbackOf (s : ChatState) (i : Nat) : Option (Option Feedback) :=
  (s.messages.find? (fun m => m.id == i)).map (fun m => m.feedback)

/-! ## Per-message helper facts -/

theorem regenMsg_isLoading (i : Nat) (m : Message) :
    (regenMsg i m).isLoading = m.isLoading := by
  by_cases h : m.id = i <;> simp [regenMsg, h]

theorem fbMsg_isLoading (i : Nat) (k : Feedback) (m : Message) :
    (fbMsg i k m).isLoading = m.isLoading := by
  by_cases h : m.id = i <;> simp [fbMsg, h]

theorem regenMsg_id (i : Nat) (m : Message) : (regenMsg i m).id = m.id := by
  by_cases h : m.id = i <;> simp [regenMsg, h]

theorem fbMsg_id (i : Nat) (k : Feedback) (m : Message) :
    (fbMsg i k m).id = m.id := by
  by_cases h : m.id = i <;> simp [fbMsg, h]

theorem resolveMsg_id (r : Except Unit String) (m : Message) :
    (resolveMsg r m).id = m.id := by
  unfold resolveMsg
  split <;> rfl

/-- `resolveMsg` always clears the loading flag. -/
theorem resolveMsg_isLoading (r : Except Unit String) (m : Message) :
    (resolveMsg r m).isLoading = false := by
  unfold resolveMsg
  split
  · rfl
  · next h => exact Bool.not_eq_true _ ▸ (Bool.eq_false_iff.mpr h)

/-! ## C1: the single-flight / single-pending invariant -/

/-- The part of the C1 invariant that the code maintains: never more
than one pending turn, and no pending turn at all while `submitting` is
false. -/
def StateInv (s : ChatState) : Prop :=
  pendingCount s ≤ 1 ∧ (s.isLoading = false → pendingCount s = 0)

theorem stateInv_step (s : ChatState) (e : Event) (h : StateInv s) :
    StateInv (step s e) := by
  cases e with
  | setInput t => exact h
  | submitStart t1 t2 =>
    show StateInv (submitStart s t1 t2)
    unfold submitStart
    split
    · exact h
    · next hg =>
      have hld : s.isLoading = false := by
        rcases Bool.eq_false_or_eq_true s.isLoading with hb | hb
        · exact absurd (Or.inr hb) hg
        · exact hb
      have h0 : pendingCount s = 0 := h.2 hld
      constructor
      · show (s.messages ++ [mkUserTurn s t1, mkPendingTurn t2]).countP _ ≤ 1
        rw [List.countP_append]
        unfold pendingCount at h0
        simp [h0, List.countP_cons, mkUserTurn, mkPendingTurn]
      · intro hfalse
        exact absurd hfalse (by simp)
  | submitSettle r =>
    constructor
    · show (s.messages.map (resolveMsg r)).countP _ ≤ 1
      have : (s.messages.map (resolveMsg r)).countP (fun m => m.isLoading) = 0 := by
        rw [List.countP_eq_zero]
        intro m hm
        rcases List.mem_map.mp hm with ⟨m', _, rfl⟩
        simp [resolveMsg_isLoading]
      omega
    · intro _
      show (s.messages.map (resolveMsg r)).countP _ = 0
      rw [List.countP_eq_zero]
      intro m hm
      rcases List.mem_map.mp hm with ⟨m', _, rfl⟩
      simp [resolveMsg_isLoading]
  | newChat =>
    exact ⟨by simp [pendingCount, step, handleNewChat], fun _ => by
      simp [pendingCount, step, handleNewChat]⟩
  | regenerate i =>
    have hc : pendingCount (handleRegenerate s i) = pendingCount s := by
      show (s.messages.map (regenMsg i)).countP _ = _
      rw [List.countP_map]
      apply List.countP_congr
      intro m _
      simp [Function.comp, regenMsg_isLoading]
    exact ⟨hc ▸ h.1, fun hl => hc ▸ h.2 hl⟩
  | feedback i k =>
    have hc : pendingCount (handleFeedback s i k) = pendingCount s := by
      show (s.messages.map (fbMsg i k)).countP _ = _
      rw [List.countP_map]
      apply List.countP_congr
      intro m _
      simp [Function.comp, fbMsg_isLoading]
    exact ⟨hc ▸ h.1, fun hl => hc ▸ h.2 hl⟩

theorem stateInv_run (es : List Event) :
    ∀ s : ChatState, StateInv s → StateInv (runTrace s es) := by
  induction es with
  | nil => intro s h; exact h
  | cons e es ih => intro s h; exact ih _ (stateInv_step s e h)

/-- C1 counterexample: the "iff" direction fails on a realizable trace.
Type "hi", submit it (clock 10), then hit New Chat while the call is in
flight: `submitting` is observably true while zero turns are pending,
because `handleNewChat` removes the pending placeholder without
touching `isLoading`. -/
theorem submitting_without_pending_cex :
    validOk initState 0
      [Event.setInput "hi", Event.submitStart 10 10, Event.newChat] = true ∧
    ¬ (((runTrace initState
          [Event.setInput "hi", Event.submitStart 10 10, Event.newChat]).isLoading
            = true)
        ↔ pendingCount (runTrace initState
            [Event.setInput "hi", Event.submitStart 10 10, Event.newChat]) = 1) := by
  refine ⟨by decide, by decide⟩

/-- C1 (amended): at every observable point of every sequence of
operations, at most one Turn is pending, and whenever a pending Turn
exists the submitting flag is true; the converse direction does not
hold - a reset during an in-flight call leaves submitting true with
zero pending Turns until the call settles. -/
theorem pending_turns_invariant (es : List Event) :
    pendingCount (runTrace initState es) ≤ 1 ∧
    (1 ≤ pendingCount (runTrace initState es) →
      (runTrace initState es).isLoading = true) := by
  have h := stateInv_run es initState ⟨by decide, fun _ => rfl⟩
  refine ⟨h.1, ?_⟩
  intro hp
  cases hb : (runTrace initState es).isLoading with
  | true => rfl
  | false =>
    have h0 := h.2 hb
    omega

/-- Witness for `pending_turns_invariant`: right after a valid
submission there is one pending turn and submitting is true. -/
theorem pending_turns_invariant_witness :
    1 ≤ pendingCount (runTrace initState
      [Event.setInput "a", Event.submitStart 5 5]) ∧
    (runTrace initState
      [Event.setInput "a", Event.submitStart 5 5]).isLoading = true :=
  ⟨by decide,
   (pending_turns_invariant [Event.setInput "a", Event.submitStart 5 5]).2
     (by decide)⟩

/-! ## C3: turn ids across submissions -/

/-- C3 counterexample: ids can collide and decrease across consecutive
submissions on a realizable trace.  Both submissions read `Date.now()`
= 100 (the second begins in the same millisecond in which the first
settled; `validOk` certifies the readings are non-decreasing and the
settlement happens while in flight).  The resulting id sequence
`[1, 2, 100, 101, 100, 101]` repeats 100 and 101 and is not even
non-decreasing. -/
theorem ids_collision_cex :
    validOk initState 0
      [Event.setInput "a", Event.submitStart 100 100,
       Event.submitSettle (Except.ok "r"), Event.setInput "b",
       Event.submitStart 100 100] = true ∧
    idsOf (runTrace initState
      [Event.setInput "a", Event.submitStart 100 100,
       Event.submitSettle (Except.ok "r"), Event.setInput "b",
       Event.submitStart 100 100]) = [1, 2, 100, 101, 100, 101] ∧
    ¬ (idsOf (runTrace initState
      [Event.setInput "a", Event.submitStart 100 100,
       Event.submitSettle (Except.ok "r"), Event.setInput "b",
       Event.submitStart 100 100])).Nodup ∧
    ¬ ((idsOf (runTrace initState
      [Event.setInput "a", Event.submitStart 100 100,
       Event.submitSettle (Except.ok "r"), Event.setInput "b",
       Event.submitStart 100 100])).Pairwise (· ≤ ·)) := by
  refine ⟨by decide, by decide, by decide, by decide⟩

theorem ids_increasing_run (es : List Event) :
    ∀ (clk : Nat) (s : ChatState), spacedOk clk es = true →
    (idsOf s).Pairwise (· < ·) → (∀ i ∈ idsOf s, i ≤ clk + 1) →
    (idsOf (runTrace s es)).Pairwise (· < ·) := by
  induction es with
  | nil =>
    intro clk s _ hp _
    exact hp
  | cons e es ih =>
    intro clk s hsp hp hb
    cases e with
    | setInput t =>
      exact ih clk _ (by simpa [spacedOk] using hsp) hp hb
    | newChat =>
      refine ih clk _ (by simpa [spacedOk] using hsp) ?_ ?_
      · simp [idsOf, step, handleNewChat]
      · intro i hi
        simp [idsOf, step, handleNewChat] at hi
    | submitSettle r =>
      have hids : idsOf (submitSettle s r) = idsOf s := by
        show (s.messages.map (resolveMsg r)).map _ = _
        rw [List.map_map]
        apply List.map_congr_left
        intro m _
        exact resolveMsg_id r m
      refine ih clk _ (by simpa [spacedOk] using hsp) ?_ ?_
      · show (idsOf (submitSettle s r)).Pairwise (· < ·)
        rw [hids]
        exact hp
      · show ∀ i ∈ idsOf (submitSettle s r), i ≤ clk + 1
        rw [hids]
        exact hb
    | regenerate j =>
      have hids : idsOf (handleRegenerate s j) = idsOf s := by
        show (s.messages.map (regenMsg j)).map _ = _
        rw [List.map_map]
        apply List.map_congr_left
        intro m _
        exact regenMsg_id j m
      refine ih clk _ (by simpa [spacedOk] using hsp) ?_ ?_
      · show (idsOf (handleRegenerate s j)).Pairwise (· < ·)
        rw [hids]
        exact hp
      · show ∀ i ∈ idsOf (handleRegenerate s j), i ≤ clk + 1
        rw [hids]
        exact hb
    | feedback j k =>
      have hids : idsOf (handleFeedback s j k) = idsOf s := by
        show (s.messages.map (fbMsg j k)).map _ = _
        rw [List.map_map]
        apply List.map_congr_left
        intro m _
        exact fbMsg_id j k m
      refine ih clk _ (by simpa [spacedOk] using hsp) ?_ ?_
      · show (idsOf (handleFeedback s j k)).Pairwise (· < ·)
        rw [hids]
        exact hp
      · show ∀ i ∈ idsOf (handleFeedback s j k), i ≤ clk + 1
        rw [hids]
        exact hb
    | submitStart t1 t2 =>
      obtain ⟨⟨h1, h2⟩, h3⟩ :
          (clk + 2 ≤ t1 ∧ t1 ≤ t2) ∧ spacedOk t2 es = true := by
        simpa [spacedOk, Bool.and_eq_true, and_assoc] using hsp
      by_cases hg : jsTrim s.inputText = "" ∨ s.isLoading = true
      · have hstep : step s (Event.submitStart t1 t2) = s := by
          show submitStart s t1 t2 = s
          simp [submitStart, if_pos hg]
        rw [runTrace, hstep]
        refine ih t2 s h3 hp ?_
        intro i hi
        have := hb i hi
        omega
      · have hstep : idsOf (step s (Event.submitStart t1 t2))
            = idsOf s ++ [t1, t2 + 1] := by
          show idsOf (submitStart s t1 t2) = _
          simp [submitStart, if_neg hg, idsOf, mkUserTurn, mkPendingTurn]
        refine ih t2 _ h3 ?_ ?_
        · rw [hstep, List.pairwise_append]
          refine ⟨hp, ?_, ?_⟩
          · simp only [List.pairwise_cons, List.mem_cons, List.mem_singleton,
              List.not_mem_nil, forall_eq, or_false, and_true, List.Pairwise.nil]
            exact ⟨by omega, fun a hfalse => absurd hfalse (by simp)⟩
          · intro a ha b hb'
            have h4 := hb a ha
            simp only [List.mem_cons, List.not_mem_nil, or_false] at hb'
            rcases hb' with rfl | rfl
            · omega
            · omega
        · rw [hstep]
          intro i hi
          rcases List.mem_append.mp hi with hi | hi
          · have := hb i hi
            omega
          · simp only [List.mem_cons, List.not_mem_nil, or_false] at hi
            rcases hi with rfl | rfl
            · omega
            · omega

/-- C3 (amended): within one submission the user turn and its
placeholder always get distinct ids even when created in the same
instant (`t1` and `t2 + 1` with `t1 ≤ t2`); and whenever every
submission starts strictly more than one clock unit after the previous
submission's readings (`spacedOk`), all ids in `turns` are strictly
increasing in creation order, hence pairwise distinct.  (Without that
headroom consecutive submissions can repeat ids - see the
counterexample.) -/
theorem ids_distinct_monotone (clk : Nat) (es : List Event)
    (hclk : 1 ≤ clk) (hsp : spacedOk clk es = true) :
    (idsOf (runTrace initState es)).Pairwise (· < ·) ∧
    (idsOf (runTrace initState es)).Nodup := by
  have hp : (idsOf initState).Pairwise (· < ·) := by decide
  have hb : ∀ i ∈ idsOf initState, i ≤ clk + 1 := by
    intro i hi
    have h2 : idsOf initState = [1, 2] := rfl
    rw [h2] at hi
    simp only [List.mem_cons, List.mem_singleton] at hi
    rcases hi with rfl | hi
    · omega
    · simp only [List.not_mem_nil, or_false] at hi
      omega
  have h := ids_increasing_run es clk initState hsp hp hb
  refine ⟨h, ?_⟩
  show (idsOf (runTrace initState es)).Pairwise (· ≠ ·)
  exact h.imp (fun hlt => Nat.ne_of_lt hlt)

/-- Witness for `ids_distinct_monotone`: a spaced submission after the
initial state yields the strictly increasing ids `[1, 2, 3, 5]`. -/
theorem ids_distinct_monotone_witness :
    spacedOk 1 [Event.setInput "a", Event.submitStart 3 4] = true ∧
    (idsOf (runTrace initState
      [Event.setInput "a", Event.submitStart 3 4])).Nodup :=
  ⟨by decide,
   (ids_distinct_monotone 1 [Event.setInput "a", Event.submitStart 3 4]
     (by decide) (by decide)).2⟩

/-! ## C5: rejected submissions are a complete no-op -/

/-- C5: for every input text and state, if the text trims to empty or a
submission is already in flight, `handleSendMessage` returns before any
mutation: turns, the submitting flag, the session handle (and even the
input text) are all unchanged, and no error is surfaced. -/
theorem submit_precondition_noop (s : ChatState) (t1 t2 : Nat)
    (h : jsTrim s.inputText = "" ∨ s.isLoading = true) :
    submitStart s t1 t2 = s := by
  simp only [submitStart, if_pos h]

/-- A fresh empty conversation whose input box holds only whitespace. -/
def whitespaceInputState : ChatState :=
  { messages := [], inputText := "   ", isLoading := false, chatHandle := none }

/-- Witness for `submit_precondition_noop`: a whitespace-only input on a
fresh empty conversation is silently ignored. -/
theorem submit_precondition_noop_witness :
    submitStart whitespaceInputState 5 5 = whitespaceInputState :=
  submit_precondition_noop _ 5 5 (Or.inl (by decide))

/-! ## C2: what a reset (new chat) actually clears -/

/-- C2 counterexample: a reset issued while a submission is in flight
does NOT yield `submitting = false`.  After typing "hi" and submitting
(clock reading 10), `handleNewChat` leaves `isLoading` true because it
never touches that flag; only the eventual settlement clears it. -/
theorem reset_mid_flight_cex :
    ¬ ((handleNewChat (runTrace initState
        [Event.setInput "hi", Event.submitStart 10 10])).isLoading = false) := by
  decide

/-- C2 (amended): for every conversation state, reset (new chat) yields
`turns = []`, an absent session handle, and an unchanged input field -
but leaves the submitting flag exactly as it was (in particular false
whenever no call is in flight); reset is idempotent. -/
theorem reset_clears_turns_and_handle (s : ChatState) :
    (handleNewChat s).messages = [] ∧
    (handleNewChat s).chatHandle = none ∧
    (handleNewChat s).isLoading = s.isLoading ∧
    handleNewChat (handleNewChat s) = handleNewChat s :=
  ⟨rfl, rfl, rfl, rfl⟩

/-! ## C4: lazy session creation and history reconstruction -/

/-- C4: on a submission that passes the preconditions, an
already-existing session handle is returned unchanged (so creation
happens at most once between invalidations), and on first creation the
remote history is the in-order image of every pre-existing turn under
`toHistoryEntry` (User turns to role "user", Assistant turns to role
"model", content verbatim); that history is built from the turn list as
it was before the user turn and its pending placeholder were appended,
so it never contains them. -/
theorem session_history_reconstruction (s : ChatState) (t1 t2 : Nat)
    (hne : jsTrim s.inputText ≠ "") (hld : s.isLoading = false) :
    (∀ h, s.chatHandle = some h → (submitStart s t1 t2).chatHandle = some h) ∧
    (s.chatHandle = none →
      (submitStart s t1 t2).chatHandle = some (s.messages.map toHistoryEntry) ∧
      (submitStart s t1 t2).messages
        = s.messages ++ [mkUserTurn s t1, mkPendingTurn t2] ∧
      (s.messages.map toHistoryEntry).length + 2
        = (submitStart s t1 t2).messages.length) := by
  have hg : ¬ (jsTrim s.inputText = "" ∨ s.isLoading = true) := by
    rintro (h | h)
    · exact hne h
    · rw [hld] at h
      exact Bool.false_ne_true h
  constructor
  · intro h hh
    simp [submitStart, if_neg hg, getOrCreateSession, hh]
  · intro h0
    refine ⟨?_, ?_, ?_⟩
    · simp [submitStart, if_neg hg, getOrCreateSession, h0]
    · simp [submitStart, if_neg hg]
    · simp [submitStart, if_neg hg]

/-- The conversation `[User:"A", Assistant:"B"]` with the next user
message "Hi" typed and no session handle yet. -/
def historyWitnessState : ChatState :=
  { messages := [{ id := 1, type := MsgType.user, content := "A" },
                 { id := 2, type := MsgType.bot, content := "B" }],
    inputText := "Hi", isLoading := false, chatHandle := none }

/-- Witness for `session_history_reconstruction`: the spec's history
test - turns `[User:"A", Assistant:"B"]` produce the remote history
`[(user, "A"), (model, "B")]`, without the in-flight "Hi". -/
theorem session_history_reconstruction_witness :
    (submitStart historyWitnessState 10 10).chatHandle
      = some [{ role := "user", parts := ["A"] },
              { role := "model", parts := ["B"] }] := by
  have h := (session_history_reconstruction historyWitnessState 10 10
    (by decide) rfl).2 rfl
  exact h.1.trans (by decide)

/-! ## C10: settlement is keyed by the pending flag, not by id -/

/-- C10: settlement writes the result (or apology) text into every turn
whose pending flag is set at settlement time - it never looks at ids -
leaves non-pending turns untouched, clears `submitting`, and leaves the
session handle alone; in particular, if a reset emptied the turn list
while the call was in flight, the turn list stays empty and the result
is silently discarded. -/
theorem settle_keyed_by_pending (s : ChatState) (r : Except Unit String) :
    (submitSettle s r).isLoading = false ∧
    (submitSettle s r).chatHandle = s.chatHandle ∧
    (s.messages = [] → (submitSettle s r).messages = []) ∧
    ((∀ m ∈ s.messages, m.isLoading = false) →
      (submitSettle s r).messages = s.messages) ∧
    (∀ m ∈ s.messages, m.isLoading = true →
      { m with content := settleText r, isLoading := false }
        ∈ (submitSettle s r).messages) := by
  refine ⟨rfl, rfl, ?_, ?_, ?_⟩
  · intro h
    simp [submitSettle, h]
  · intro h
    show s.messages.map (resolveMsg r) = s.messages
    have : ∀ m ∈ s.messages, resolveMsg r m = m := by
      intro m hm
      simp [resolveMsg, h m hm]
    rw [List.map_congr_left this, List.map_id']
  · intro m hm hl
    show _ ∈ s.messages.map (resolveMsg r)
    have : resolveMsg r m = { m with content := settleText r, isLoading := false } := by
      simp [resolveMsg, hl]
    exact this ▸ List.mem_map_of_mem (resolveMsg r) hm

/-- Witness for `settle_keyed_by_pending`: a settlement arriving after a
mid-flight reset finds the list empty, discards the response, and still
clears `submitting`. -/
theorem settle_keyed_by_pending_witness :
    (submitSettle (runTrace initState
        [Event.setInput "x", Event.submitStart 10 10, Event.newChat])
      (Except.ok "resp")).messages = [] ∧
    (submitSettle (runTrace initState
        [Event.setInput "x", Event.submitStart 10 10, Event.newChat])
      (Except.ok "resp")).isLoading = false := by
  have h := settle_keyed_by_pending (runTrace initState
    [Event.setInput "x", Event.submitStart 10 10, Event.newChat])
    (Except.ok "resp")
  exact ⟨h.2.2.1 (by decide), h.1⟩

/-! ## C6: resolution of the pending turn and guaranteed cleanup -/

/-- The resolved assistant turn a settled submission leaves behind. -/
def resolvedTurn (t2 : Nat) (r : Except Unit String) : Message :=
  { id := t2 + 1, type := MsgType.bot, content := settleText r,
    feedback := none, isLoading := false }

/-- C6: for every submission that passes the preconditions (stated over
states whose turns carry no stale pending flag, which holds at every
reachable non-submitting state): after the remote call settles, the
pending placeholder's content is the returned text on success
(`Except.ok`) and the fixed apology string on any failure including a
throw (`Except.error`), its pending flag is cleared, all prior turns are
untouched, and `submitting` is back to false in both cases - the
`finally` arm runs regardless of outcome. -/
theorem submit_settles_pending (s : ChatState) (t1 t2 : Nat)
    (r : Except Unit String)
    (hne : jsTrim s.inputText ≠ "") (hld : s.isLoading = false)
    (hnp : ∀ m ∈ s.messages, m.isLoading = false) :
    submitSettle (submitStart s t1 t2) r
      = { messages := s.messages ++ [mkUserTurn s t1, resolvedTurn t2 r],
          inputText := "",
          isLoading := false,
          chatHandle := getOrCreateSession s.chatHandle s.messages } := by
  have hg : ¬ (jsTrim s.inputText = "" ∨ s.isLoading = true) := by
    rintro (h | h)
    · exact hne h
    · rw [hld] at h
      exact Bool.false_ne_true h
  have hprior : s.messages.map (resolveMsg r) = s.messages := by
    have : ∀ m ∈ s.messages, resolveMsg r m = m := by
      intro m hm
      simp [resolveMsg, hnp m hm]
    rw [List.map_congr_left this, List.map_id']
  have huser : resolveMsg r (mkUserTurn s t1) = mkUserTurn s t1 := by
    simp [resolveMsg, mkUserTurn]
  have hpend : resolveMsg r (mkPendingTurn t2) = resolvedTurn t2 r := by
    simp [resolveMsg, mkPendingTurn, resolvedTurn]
  simp only [submitStart, if_neg hg, submitSettle, List.map_append,
    List.map_cons, List.map_nil, hprior, huser, hpend]

/-- The spec's success scenario: empty conversation, input "Hello". -/
def helloState : ChatState :=
  { messages := [], inputText := "Hello", isLoading := false, chatHandle := none }

/-- Witness for `submit_settles_pending`: submitting "Hello" on an empty
conversation with a collaborator answering "Hi there" ends with exactly
`[User:"Hello", Assistant:"Hi there"]`, nothing pending, `submitting`
false. -/
theorem submit_settles_pending_witness :
    submitSettle (submitStart helloState 10 10) (Except.ok "Hi there")
      = { messages := [{ id := 10, type := MsgType.user, content := "Hello" },
                       { id := 11, type := MsgType.bot, content := "Hi there" }],
          inputText := "", isLoading := false, chatHandle := some [] } := by
  have h := submit_settles_pending helloState 10 10 (Except.ok "Hi there")
    (by decide) rfl (by intro m hm; cases hm)
  exact h.trans (by decide)

/-! ## C7: regenerate and its marker -/

theorem isPrefixOf_append_self {α : Type} [BEq α] [LawfulBEq α]
    (l t : List α) : l.isPrefixOf (l ++ t) = true := by
  induction l with
  | nil => simp [List.isPrefixOf]
  | cons a l ih => simp [List.isPrefixOf, ih]

/-- Removing the first occurrence of `pat` from `pat ++ ws` yields
`ws`: the occurrence at position 0 is the one removed. -/
theorem jsReplaceFirstAux_cancel (pat ws : List Char) :
    jsReplaceFirstAux pat [] (pat ++ ws) = ws := by
  cases pat with
  | nil =>
    cases ws with
    | nil => rfl
    | cons c rest => simp [jsReplaceFirstAux, List.isPrefixOf]
  | cons p ps =>
    show jsReplaceFirstAux (p :: ps) [] (p :: (ps ++ ws)) = ws
    rw [jsReplaceFirstAux]
    have hpre : (p :: ps).isPrefixOf (p :: (ps ++ ws)) = true :=
      isPrefixOf_append_self (p :: ps) ws
    simp only [hpre, if_true, List.nil_append, List.length_cons, List.drop_succ_cons]
    exact List.drop_left ps ws

theorem jsReplaceFirst_marker_cancel (x : String) :
    jsReplaceFirst (REGEN_MARKER ++ x) REGEN_MARKER "" = x := by
  unfold jsReplaceFirst
  have hd : (REGEN_MARKER ++ x).data = REGEN_MARKER.data ++ x.data := rfl
  rw [hd, show ("" : String).data = [] from rfl, jsReplaceFirstAux_cancel]

/-- The content rewrite of `handleRegenerate` is idempotent: the first
occurrence it strips from an already-marked content is exactly the
marker it prepended. -/
theorem regenContent_idem (c : String) :
    regenContent (regenContent c) = regenContent c := by
  unfold regenContent
  rw [jsReplaceFirst_marker_cancel]

theorem regenMsg_idem (i : Nat) (m : Message) :
    regenMsg i (regenMsg i m) = regenMsg i m := by
  by_cases h : m.id = i
  · simp [regenMsg, h, regenContent_idem]
  · simp [regenMsg, h]

/-- A conversation holding a single User (not Assistant) turn, id 5. -/
def regenCexState : ChatState :=
  { messages := [{ id := 5, type := MsgType.user, content := "hi" }],
    inputText := "", isLoading := false, chatHandle := none }

/-- C7 counterexample: `handleRegenerate` matches by id alone and never
checks the role.  In a conversation whose only turn with id 5 is a User
turn - so no Assistant turn with that id exists and the claim demands a
no-op - regenerate still rewrites that User turn's content. -/
theorem regenerate_no_role_check_cex :
    (∀ m ∈ regenCexState.messages, ¬ (m.type = MsgType.bot ∧ m.id = 5)) ∧
    (handleRegenerate regenCexState 5).messages
      = [{ id := 5, type := MsgType.user, content := "[REGENERATED] hi" }] ∧
    ¬ (handleRegenerate regenCexState 5 = regenCexState) := by
  refine ⟨by decide, by decide, by decide⟩

/-- C7 (amended): `regenerate(turnId)` locates the turn with that id
regardless of its role (the source never checks `msg.type`); it is a
no-op when no turn at all has that id; it rewrites only that turn's
content, stripping the first prior occurrence of the fixed marker
"[REGENERATED] " and then prefixing the marker, so applying it twice in
a row equals applying it once (markers do not stack), and every other
turn and all other state fields are unchanged. -/
theorem regenerate_idempotent (s : ChatState) (i : Nat) :
    ((∀ m ∈ s.messages, m.id ≠ i) → handleRegenerate s i = s) ∧
    handleRegenerate (handleRegenerate s i) i = handleRegenerate s i ∧
    (∀ m ∈ s.messages, m.id ≠ i → m ∈ (handleRegenerate s i).messages) ∧
    (∀ m ∈ s.messages, m.id = i →
      { m with content := regenContent m.content }
        ∈ (handleRegenerate s i).messages) ∧
    (handleRegenerate s i).isLoading = s.isLoading ∧
    (handleRegenerate s i).chatHandle = s.chatHandle := by
  refine ⟨?_, ?_, ?_, ?_, rfl, rfl⟩
  · intro h
    have : ∀ m ∈ s.messages, regenMsg i m = m := by
      intro m hm
      simp [regenMsg, h m hm]
    show ChatState.mk (s.messages.map (regenMsg i)) _ _ _ = s
    rw [List.map_congr_left this, List.map_id']
  · show ChatState.mk ((s.messages.map (regenMsg i)).map (regenMsg i)) _ _ _ = _
    rw [List.map_map]
    have : ∀ m ∈ s.messages, (regenMsg i ∘ regenMsg i) m = regenMsg i m := by
      intro m _
      exact regenMsg_idem i m
    rw [List.map_congr_left this]
    rfl
  · intro m hm h
    have : regenMsg i m = m := by simp [regenMsg, h]
    exact this ▸ List.mem_map_of_mem (regenMsg i) hm
  · intro m hm h
    have : regenMsg i m = { m with content := regenContent m.content } := by
      simp [regenMsg, h]
    exact this ▸ List.mem_map_of_mem (regenMsg i) hm

/-- A conversation holding a single Assistant turn, id 3. -/
def regenWitnessState : ChatState :=
  { messages := [{ id := 3, type := MsgType.bot, content := "x" }],
    inputText := "", isLoading := false, chatHandle := none }

/-- Witness for `regenerate_idempotent`: regenerating a missing id 9 is
a no-op, and regenerating turn 3 twice equals regenerating it once. -/
theorem regenerate_idempotent_witness :
    handleRegenerate regenWitnessState 9 = regenWitnessState ∧
    handleRegenerate (handleRegenerate regenWitnessState 3) 3
      = handleRegenerate regenWitnessState 3 :=
  ⟨(regenerate_idempotent regenWitnessState 9).1 (by decide),
   (regenerate_idempotent regenWitnessState 3).2.1⟩

/-! ## C8: feedback toggling -/

/-- C8 counterexample: "toggling Like twice returns feedback to
absent" fails when the turn's feedback is already Like.  Reachable
state: the user Likes the initial Assistant turn (id 2) once; the next
two Like toggles - the claim's "toggling Like twice" - first clear it
and then set it again, ending at Like, not absent. -/
theorem feedback_double_like_cex :
    feedbackOf (handleFeedback (handleFeedback
        (runTrace initState [Event.feedback 2 Feedback.Like])
        2 Feedback.Like) 2 Feedback.Like) 2
      = some (some Feedback.Like) ∧
    ¬ (feedbackOf (handleFeedback (handleFeedback
        (runTrace initState [Event.feedback 2 Feedback.Like])
        2 Feedback.Like) 2 Feedback.Like) 2
      = some none) := by
  refine ⟨by decide, by decide⟩

/-- C8 (amended): `toggleFeedback(id, kind)` sets a turn's feedback to
`kind` when it currently differs and clears it to absent when it
already equals `kind`; toggling the same kind twice returns the
feedback to absent whenever it did not already equal that kind (when it
did, the two toggles clear and then restore it); toggling Like then
Dislike always ends at Dislike; turns with a different id are
untouched; and at most one of Like/Dislike is ever set, the field being
a single optional value. -/
theorem feedback_toggle (s : ChatState) (i : Nat) (k k' : Feedback)
    (fb : Option Feedback) :
    (fb ≠ some k → toggleFB k (toggleFB k fb) = none) ∧
    (toggleFB k (toggleFB k (some k)) = some k) ∧
    (k' ≠ k → toggleFB k' (toggleFB k fb) = some k') ∧
    (∀ m ∈ s.messages, m.id ≠ i → m ∈ (handleFeedback s i k).messages) ∧
    (∀ m ∈ s.messages, m.id = i →
      { m with feedback := toggleFB k m.feedback }
        ∈ (handleFeedback s i k).messages) := by
  refine ⟨?_, ?_, ?_, ?_, ?_⟩
  · intro h
    simp [toggleFB, h]
  · simp [toggleFB]
  · intro h
    by_cases hfb : fb = some k
    · simp [toggleFB, hfb, h]
    · have hne : (some k' : Option Feedback) ≠ some k := by
        simpa using h
      simp [toggleFB, hfb, hne, Ne.symm h]
  · intro m hm h
    have : fbMsg i k m = m := by simp [fbMsg, h]
    exact this ▸ List.mem_map_of_mem (fbMsg i k) hm
  · intro m hm h
    have : fbMsg i k m = { m with feedback := toggleFB k m.feedback } := by
      simp [fbMsg, h]
    exact this ▸ List.mem_map_of_mem (fbMsg i k) hm

/-- Witness for `feedback_toggle`: from an absent feedback, Like-Like
ends absent and Like-Dislike ends at Dislike. -/
theorem feedback_toggle_witness :
    toggleFB Feedback.Like (toggleFB Feedback.Like none) = none ∧
    toggleFB Feedback.Dislike (toggleFB Feedback.Like none)
      = some Feedback.Dislike :=
  ⟨(feedback_toggle whitespaceInputState 0 Feedback.Like Feedback.Dislike
      none).1 (by decide),
   (feedback_toggle whitespaceInputState 0 Feedback.Like Feedback.Dislike
      none).2.2.1 (by decide)⟩

/-! ## C9: the initial conversation state is not empty -/

/-- C9: before any user action, `turns` holds exactly the two hardcoded
turns - a User turn with id 1 followed by an Assistant turn with id 2 -
`submitting` is false and no session handle exists; the state only
becomes empty after a reset. -/
theorem initial_state_two_turns :
    initState.messages.map (fun m => m.id) = [1, 2] ∧
    initState.messages.map (fun m => m.type) = [MsgType.user, MsgType.bot] ∧
    initState.isLoading = false ∧
    initState.chatHandle = none ∧
    initState.messages ≠ [] ∧
    (handleNewChat initState).messages = [] :=
  ⟨rfl, rfl, rfl, rfl, by decide, rfl⟩
